import Mathlib

/-!
# 8-Puzzle-Viewer: move engine and test runner

A shallow embedding of `8puzzleviewer.cpp`.

* `std::array<std::array<char,3>,3>` is a total function on two indices in
  `Fin 3`; `game[a][b]` is `game a b` (first index = column `x`, second = row `y`).
* `Position` holds two C++ `int`s, embedded as `Int`.  Signed overflow and an
  array subscript outside `0..2` are undefined behaviour in C++; every
  operation that can reach one returns `none` there.
* `char` is embedded as `Char`; comparisons with `int` expressions go through
  the character code (`Char.toNat`).
* The two input streams are the lists of what `operator>>` extracts from
  them: the characters of the test file that are not whitespace, and the
  whitespace-separated words of the candidate file.  A failed extraction
  leaves a `char` as it was and empties a `std::string`.
-/

namespace Puzzle

/-- Game state matrix, `std::array<std::array<char,3>,3>`. -/
abbrev Board := Fin 3 → Fin 3 → Char

/-- The struct `Position` of the source. -/
structure Position where
  x : Int
  y : Int
deriving DecidableEq

/-- Smallest value of a 32-bit `int`. -/
def INT_MIN : Int := -2147483648

/-- Largest value of a 32-bit `int`. -/
def INT_MAX : Int := 2147483647

/-- Signed `int` arithmetic result: defined only when it fits the type. -/
def checkInt (v : Int) : Option Int :=
  if INT_MIN ≤ v ∧ v ≤ INT_MAX then some v else none

/-- Array subscript `a[i]` on a `std::array<_,3>`: defined only for `0 ≤ i < 3`. -/
def index3 (i : Int) : Option (Fin 3) :=
  if h : 0 ≤ i ∧ i < 3 then some ⟨i.toNat, by omega⟩ else none

/-- The value of `game.size()` and of `game[i].size()`, fixed by the array type. -/
def SIZE : Int := 3

/-- Assignment `game[a][b] = c`. -/
def setCell (game : Board) (a b : Fin 3) (c : Char) : Board :=
  fun i j => if i = a ∧ j = b then c else game i j

/-- The call `std::swap(game[nx][ny], game[px][py])`:
`tmp = game[nx][ny]; game[nx][ny] = game[px][py]; game[px][py] = tmp`. -/
def swapCells (game : Board) (nx ny px py : Fin 3) : Board :=
  let tmp := game nx ny
  let game1 := setCell game nx ny (game px py)
  setCell game1 px py tmp

/-- Lines 124-127 of `MakeMove`:
`std::swap(game[newPos.x][newPos.y], game[pos.x][pos.y]); pos = newPos; return true;`. -/
def applySwap (game : Board) (newPos pos : Position) : Option (Bool × Board × Position) :=
  match index3 newPos.x, index3 newPos.y, index3 pos.x, index3 pos.y with
  | some nx, some ny, some px, some py => some (true, swapCells game nx ny px py, newPos)
  | _, _, _, _ => none

/-- The function `MakeMove` of the source.  The result is the returned `bool`
together with the values of the reference parameters `game` and `pos` after the
call; `none` is undefined behaviour. -/
def MakeMove (game : Board) (move : Char) (pos : Position) : Option (Bool × Board × Position) :=
  if move = 'u' then
    match checkInt (pos.y - 1) with
    | none => none
    | some ny =>
      if ny < 0 then some (false, game, pos)
      else applySwap game { x := pos.x, y := ny } pos
  else if move = 'd' then
    match checkInt (pos.y + 1) with
    | none => none
    | some ny =>
      if ny ≥ SIZE then some (false, game, pos)
      else applySwap game { x := pos.x, y := ny } pos
  else if move = 'l' then
    match checkInt (pos.x - 1) with
    | none => none
    | some nx =>
      if nx < 0 then some (false, game, pos)
      else applySwap game { x := nx, y := pos.y } pos
  else if move = 'r' then
    match checkInt (pos.x + 1) with
    | none => none
    | some nx =>
      if nx ≥ SIZE then some (false, game, pos)
      else applySwap game { x := nx, y := pos.y } pos
  else some (false, game, pos)

/-- The loop indices `0, 1, 2` of every `for` over the grid. -/
def idx3 : List (Fin 3) := [0, 1, 2]

/-- The function `TestSolution` of the source: the nested loops return `false`
at the first cell with `game[j][i] != '1' + (j + 3*i) && game[j][i] != 'x'`
and `true` when no cell does. -/
def TestSolution (game : Board) : Bool :=
  idx3.all fun i => idx3.all fun j =>
    !(decide ((game j i).toNat ≠ '1'.toNat + (j.val + SIZE.toNat * i.val))
      && decide (game j i ≠ 'x'))

/-- The coordinate lies on the grid: `0 ≤ x ≤ 2` and `0 ≤ y ≤ 2`. -/
def inGrid (p : Position) : Prop := 0 ≤ p.x ∧ p.x ≤ 2 ∧ 0 ≤ p.y ∧ p.y ≤ 2

instance decidableInGrid (p : Position) : Decidable (inGrid p) :=
  inferInstanceAs (Decidable (0 ≤ p.x ∧ p.x ≤ 2 ∧ 0 ≤ p.y ∧ p.y ≤ 2))

/-- Read access `game[p.x][p.y]`, defined on the grid only. -/
def cellAt (game : Board) (p : Position) : Option Char :=
  match index3 p.x, index3 p.y with
  | some a, some b => some (game a b)
  | _, _ => none

/-- One pass of the inner read loop body (lines 205-207):
`inputFile >> game[k][j]; if(game[k][j] == 'x') pos = {k, j};`.
A failed extraction leaves `game[k][j]` as it was. -/
def readCell (st : Board × Position × List Char) (k j : Fin 3) : Board × Position × List Char :=
  let game := st.1
  let pos := st.2.1
  let input := st.2.2
  let game1 := match input with
    | c :: _ => setCell game k j c
    | [] => game
  let input1 := input.tail
  if game1 k j = 'x' then (game1, { x := (k.val : Int), y := (j.val : Int) }, input1)
  else (game1, pos, input1)

/-- The read loops of `main` (lines 201-209): outer loop over `j`, inner loop
over `k`, each token stored at `game[k][j]`. -/
def readBoard (game : Board) (pos : Position) (input : List Char) :
    Board × Position × List Char :=
  idx3.foldl (fun st j => idx3.foldl (fun st k => readCell st k j) st) (game, pos, input)

/-- The extraction `outputFile >> solution`: the next word, or the empty string
when the stream has none left. -/
def readWord (output : List String) : String × List String :=
  match output with
  | w :: rest => (w, rest)
  | [] => ("", [])

/-- The replay loop of `main` (lines 226-240),
`for(char move : solution) { if(!MakeMove(game, move, pos)) { valid = false; break; } ... }`:
the result is the flag `valid` with `game` and `pos` after the loop. -/
def replay (game : Board) (pos : Position) : List Char → Option (Bool × Board × Position)
  | [] => some (true, game, pos)
  | move :: rest =>
    match MakeMove game move pos with
    | none => none
    | some (true, game1, pos1) => replay game1 pos1 rest
    | some (false, game1, pos1) => some (false, game1, pos1)

/-- Lines 214-250 of `main`, the part of a test after its data are read: the
result says whether `correct++` was executed, with `game` and `pos` at the end
of the loop iteration. -/
def runSolution (game : Board) (pos : Position) (solution : String) :
    Option (Bool × Board × Position) :=
  if solution = "unsolvable" then some (true, game, pos)
  else
    match replay game pos solution.data with
    | none => none
    | some (valid, game1, pos1) =>
      if valid then
        if TestSolution game1 then some (true, game1, pos1)
        else some (false, game1, pos1)
      else some (false, game1, pos1)

/-- The variables of `main` that live across iterations of the test loop, with
what is left of the two streams. -/
structure Run where
  game : Board
  pos : Position
  input : List Char
  output : List String
  correct : Int

/-- One iteration of the test loop of `main` (lines 196-251). -/
def testCase (st : Run) : Option Run :=
  let r := readBoard st.game st.pos st.input
  let w := readWord st.output
  match runSolution r.1 r.2.1 w.1 with
  | none => none
  | some (counted, game1, pos1) =>
    some { game := game1, pos := pos1, input := r.2.2, output := w.2,
           correct := if counted then st.correct + 1 else st.correct }

/-- The test loop `for(int i = 0; i < numTests; i++)` run for `n` iterations. -/
def runTests : Nat → Run → Option Run
  | 0, st => some st
  | n + 1, st =>
    match testCase st with
    | none => none
    | some st1 => runTests n st1

/-- The body of `main` from the test loop on: the pair passed to
`ShowFinalResults(correct, numTests)`.  `game` and `pos` are the values the
two locals hold before the first test. -/
def mainTally (numTests : Int) (game : Board) (pos : Position) (input : List Char)
    (output : List String) : Option (Int × Int) :=
  match runTests numTests.toNat
      { game := game, pos := pos, input := input, output := output, correct := 0 } with
  | none => none
  | some st => some (st.correct, numTests)

/-! ## Vocabulary of the specification -/

/-- The coordinate a direction character aims at: `u` is `(x, y-1)`, `d` is
`(x, y+1)`, `l` is `(x-1, y)`, `r` is `(x+1, y)`; no other character is a
direction. -/
def moveTarget (move : Char) (pos : Position) : Option Position :=
  if move = 'u' then some { x := pos.x, y := pos.y - 1 }
  else if move = 'd' then some { x := pos.x, y := pos.y + 1 }
  else if move = 'l' then some { x := pos.x - 1, y := pos.y }
  else if move = 'r' then some { x := pos.x + 1, y := pos.y }
  else none

/-- The inverse direction: `u` and `d` undo each other, `l` and `r` undo each other. -/
def inverseMove (move : Char) : Char :=
  if move = 'u' then 'd'
  else if move = 'd' then 'u'
  else if move = 'l' then 'r'
  else if move = 'r' then 'l'
  else move

/-- The classic target, column by column: `goal[0] = {1,4,7}`, `goal[1] = {2,5,8}`,
`goal[2] = {3,6,x}`. -/
def goal : Board := ![!['1', '4', '7'], !['2', '5', '8'], !['3', '6', 'x']]

/-- The nine cells of a board, in reading order (row by row). -/
def cells (game : Board) : List Char :=
  [game 0 0, game 1 0, game 2 0, game 0 1, game 1 1, game 2 1, game 0 2, game 1 2, game 2 2]

/-- The eight tile symbols. -/
def digits : List Char := ['1', '2', '3', '4', '5', '6', '7', '8']

/-- The board invariant of the data model: exactly one cell holds `x`, and each
of the digits `1` to `8` is held by exactly one cell (so the other eight cells
hold the eight distinct digits). -/
def ValidBoard (game : Board) : Prop :=
  (cells game).count 'x' = 1 ∧ ∀ d ∈ digits, (cells game).count d = 1

instance decidableValidBoard (game : Board) : Decidable (ValidBoard game) :=
  inferInstanceAs
    (Decidable ((cells game).count 'x' = 1 ∧ ∀ d ∈ digits, (cells game).count d = 1))

/-- Well-formed state: the board invariant holds, and the cached blank
coordinate is on the grid and is the coordinate of the cell holding `x`. -/
def WellFormed (game : Board) (pos : Position) : Prop :=
  ValidBoard game ∧ inGrid pos ∧ cellAt game pos = some 'x'

instance decidableWellFormed (game : Board) (pos : Position) :
    Decidable (WellFormed game pos) :=
  inferInstanceAs (Decidable (ValidBoard game ∧ inGrid pos ∧ cellAt game pos = some 'x'))

/-- Every character of the list is accepted by `MakeMove` when the characters
are applied in order from `(game, pos)`; the last two arguments are the board
and the blank coordinate reached. -/
inductive AllAccepted : Board → Position → List Char → Board → Position → Prop
  | nil (game : Board) (pos : Position) : AllAccepted game pos [] game pos
  | cons (game : Board) (pos : Position) (move : Char) (game1 : Board) (pos1 : Position)
      (rest : List Char) (game2 : Board) (pos2 : Position) :
      MakeMove game move pos = some (true, game1, pos1) →
      AllAccepted game1 pos1 rest game2 pos2 →
      AllAccepted game pos (move :: rest) game2 pos2

/-- The board of scenario 1 as stored: tokens `1 2 3 4 5 6 7 x 8`, the `t`-th at
`game[t mod 3][t div 3]`. -/
def scenarioBoard : Board := ![!['1', '4', '7'], !['2', '5', 'x'], !['3', '6', '8']]

/-- The nine tokens of scenario 1 in file order. -/
def scenarioTokens : List Char := ['1', '2', '3', '4', '5', '6', '7', 'x', '8']

/-- Nine input symbols none of which is the blank marker. -/
def noBlankTokens : List Char := ['1', '2', '3', '4', '5', '6', '7', '8', '9']

/-- A well-formed board with the blank at column 0, row 0 (tokens `x 1 2 3 4 5 6 7 8`). -/
def blankAt00 : Board := ![!['x', '3', '6'], !['1', '4', '7'], !['2', '5', '8']]

/-- A well-formed board with the blank at column 0, row 1 (tokens `1 2 3 x 4 5 6 7 8`). -/
def blankAt01 : Board := ![!['1', 'x', '6'], !['2', '4', '7'], !['3', '5', '8']]

/-! ## Basic facts about the grid -/

theorem index3_of_bounds (i : Int) (h0 : 0 ≤ i) (h2 : i ≤ 2) :
    ∃ a : Fin 3, index3 i = some a ∧ (a.val : Int) = i := by
  refine ⟨⟨i.toNat, by omega⟩, ?_, ?_⟩
  · unfold index3
    rw [dif_pos ⟨h0, by omega⟩]
  · simp only []
    omega

theorem index3_val (a : Fin 3) : index3 (a.val : Int) = some a := by
  unfold index3
  have h : 0 ≤ (a.val : Int) ∧ (a.val : Int) < 3 := ⟨by omega, by omega⟩
  rw [dif_pos h]
  simp

theorem checkInt_small (v : Int) (h0 : -1 ≤ v) (h2 : v ≤ 3) : checkInt v = some v := by
  unfold checkInt INT_MIN INT_MAX
  rw [if_pos ⟨by omega, by omega⟩]

theorem swapCells_new (game : Board) (nx ny px py : Fin 3) :
    swapCells game nx ny px py nx ny = game px py := by
  unfold swapCells setCell
  by_cases h : nx = px ∧ ny = py
  · simp [h]
  · simp [h]

theorem swapCells_old (game : Board) (nx ny px py : Fin 3) :
    swapCells game nx ny px py px py = game nx ny := by
  simp [swapCells, setCell]

theorem swapCells_other (game : Board) (nx ny px py i j : Fin 3)
    (hn : ¬ (i = nx ∧ j = ny)) (hp : ¬ (i = px ∧ j = py)) :
    swapCells game nx ny px py i j = game i j := by
  simp [swapCells, setCell, hn, hp]

theorem swapCells_swapCells (game : Board) (nx ny px py : Fin 3) :
    swapCells (swapCells game nx ny px py) px py nx ny = game := by
  funext i j
  by_cases hp : i = px ∧ j = py
  · obtain ⟨rfl, rfl⟩ := hp
    rw [swapCells_new, swapCells_new]
  · by_cases hn : i = nx ∧ j = ny
    · obtain ⟨rfl, rfl⟩ := hn
      rw [swapCells_old, swapCells_old]
    · rw [swapCells_other _ _ _ _ _ _ _ hp hn, swapCells_other _ _ _ _ _ _ _ hn hp]

/-- On the grid `MakeMove` is: aim at `moveTarget`, reject when there is none
or it is off the grid, swap otherwise. -/
theorem MakeMove_inGrid (game : Board) (move : Char) (pos : Position) (h : inGrid pos) :
    MakeMove game move pos =
      match moveTarget move pos with
      | some q => if inGrid q then applySwap game q pos else some (false, game, pos)
      | none => some (false, game, pos) := by
  obtain ⟨hx0, hx2, hy0, hy2⟩ := h
  unfold MakeMove moveTarget
  by_cases hu : move = 'u'
  · rw [if_pos hu, if_pos hu, checkInt_small _ (by omega) (by omega)]
    simp only [inGrid]
    by_cases hy : pos.y - 1 < 0
    · rw [if_pos hy, if_neg (by omega)]
    · rw [if_neg hy, if_pos ⟨hx0, hx2, by omega, by omega⟩]
  · rw [if_neg hu, if_neg hu]
    by_cases hd : move = 'd'
    · rw [if_pos hd, if_pos hd, checkInt_small _ (by omega) (by omega)]
      simp only [inGrid, SIZE]
      by_cases hy : pos.y + 1 ≥ 3
      · rw [if_pos hy, if_neg (by omega)]
      · rw [if_neg hy, if_pos ⟨hx0, hx2, by omega, by omega⟩]
    · rw [if_neg hd, if_neg hd]
      by_cases hl : move = 'l'
      · rw [if_pos hl, if_pos hl, checkInt_small _ (by omega) (by omega)]
        simp only [inGrid]
        by_cases hx : pos.x - 1 < 0
        · rw [if_pos hx, if_neg (by omega)]
        · rw [if_neg hx, if_pos ⟨by omega, by omega, hy0, hy2⟩]
      · rw [if_neg hl, if_neg hl]
        by_cases hr : move = 'r'
        · rw [if_pos hr, if_pos hr, checkInt_small _ (by omega) (by omega)]
          simp only [inGrid, SIZE]
          by_cases hx : pos.x + 1 ≥ 3
          · rw [if_pos hx, if_neg (by omega)]
          · rw [if_neg hx, if_pos ⟨by omega, by omega, hy0, hy2⟩]
        · rw [if_neg hr, if_neg hr]

/-- On the grid the swap of `MakeMove` is defined and exchanges the two cells. -/
theorem applySwap_inGrid (game : Board) (q pos : Position) (hq : inGrid q) (hp : inGrid pos) :
    ∃ nx ny px py : Fin 3,
      (nx.val : Int) = q.x ∧ (ny.val : Int) = q.y ∧
      (px.val : Int) = pos.x ∧ (py.val : Int) = pos.y ∧
      applySwap game q pos = some (true, swapCells game nx ny px py, q) := by
  obtain ⟨nx, hnx, hnx1⟩ := index3_of_bounds q.x hq.1 hq.2.1
  obtain ⟨ny, hny, hny1⟩ := index3_of_bounds q.y hq.2.2.1 hq.2.2.2
  obtain ⟨px, hpx, hpx1⟩ := index3_of_bounds pos.x hp.1 hp.2.1
  obtain ⟨py, hpy, hpy1⟩ := index3_of_bounds pos.y hp.2.2.1 hp.2.2.2
  refine ⟨nx, ny, px, py, hnx1, hny1, hpx1, hpy1, ?_⟩
  unfold applySwap
  rw [hnx, hny, hpx, hpy]

theorem cellAt_val (game : Board) (a b : Fin 3) :
    cellAt game { x := (a.val : Int), y := (b.val : Int) } = some (game a b) := by
  unfold cellAt
  simp only [index3_val]

theorem cellAt_of_val (game : Board) (p : Position) (a b : Fin 3)
    (ha : (a.val : Int) = p.x) (hb : (b.val : Int) = p.y) :
    cellAt game p = some (game a b) := by
  have : p = { x := (a.val : Int), y := (b.val : Int) } := by
    cases p; simp_all
  rw [this, cellAt_val]

theorem applySwap_ne_false (game : Board) (q pos : Position) (game1 : Board) (pos1 : Position) :
    applySwap game q pos ≠ some (false, game1, pos1) := by
  unfold applySwap
  split
  · simp
  · simp

theorem moveTarget_direction (move : Char) (pos q : Position) (h : moveTarget move pos = some q) :
    move = 'u' ∨ move = 'd' ∨ move = 'l' ∨ move = 'r' := by
  unfold moveTarget at h
  by_cases hu : move = 'u'
  · exact Or.inl hu
  · by_cases hd : move = 'd'
    · exact Or.inr (Or.inl hd)
    · by_cases hl : move = 'l'
      · exact Or.inr (Or.inr (Or.inl hl))
      · by_cases hr : move = 'r'
        · exact Or.inr (Or.inr (Or.inr hr))
        · simp [hu, hd, hl, hr] at h

/-- A successful `MakeMove` on the grid: the target is on the grid, it is the
new blank coordinate, and the new board is the old one with two cells swapped. -/
theorem MakeMove_true_inGrid (game : Board) (move : Char) (pos : Position) (h : inGrid pos)
    (game1 : Board) (pos1 : Position) (hm : MakeMove game move pos = some (true, game1, pos1)) :
    moveTarget move pos = some pos1 ∧ inGrid pos1 ∧
    ∃ nx ny px py : Fin 3,
      (nx.val : Int) = pos1.x ∧ (ny.val : Int) = pos1.y ∧
      (px.val : Int) = pos.x ∧ (py.val : Int) = pos.y ∧
      game1 = swapCells game nx ny px py := by
  rw [MakeMove_inGrid game move pos h] at hm
  cases hmt : moveTarget move pos with
  | none => rw [hmt] at hm; simp at hm
  | some q =>
    rw [hmt] at hm
    simp only [] at hm
    by_cases hq : inGrid q
    · rw [if_pos hq] at hm
      obtain ⟨nx, ny, px, py, h1, h2, h3, h4, hsw⟩ := applySwap_inGrid game q pos hq h
      rw [hsw] at hm
      simp only [Option.some.injEq, Prod.mk.injEq, true_and] at hm
      obtain ⟨hg, hp⟩ := hm
      subst hp
      exact ⟨rfl, hq, nx, ny, px, py, h1, h2, h3, h4, hg.symm⟩
    · rw [if_neg hq] at hm
      simp at hm

/-- Every `return false` of `MakeMove` comes before the swap. -/
theorem MakeMove_false_same (game : Board) (move : Char) (pos : Position)
    (game1 : Board) (pos1 : Position)
    (hm : MakeMove game move pos = some (false, game1, pos1)) :
    game1 = game ∧ pos1 = pos := by
  unfold MakeMove at hm
  by_cases hu : move = 'u'
  · rw [if_pos hu] at hm
    cases hc : checkInt (pos.y - 1) with
    | none => rw [hc] at hm; simp at hm
    | some n =>
      rw [hc] at hm
      simp only [] at hm
      by_cases hcc : n < 0
      · rw [if_pos hcc] at hm
        simp only [Option.some.injEq, Prod.mk.injEq, true_and] at hm
        exact ⟨hm.1.symm, hm.2.symm⟩
      · rw [if_neg hcc] at hm
        exact absurd hm (applySwap_ne_false _ _ _ _ _)
  rw [if_neg hu] at hm
  by_cases hd : move = 'd'
  · rw [if_pos hd] at hm
    cases hc : checkInt (pos.y + 1) with
    | none => rw [hc] at hm; simp at hm
    | some n =>
      rw [hc] at hm
      simp only [] at hm
      by_cases hcc : n ≥ SIZE
      · rw [if_pos hcc] at hm
        simp only [Option.some.injEq, Prod.mk.injEq, true_and] at hm
        exact ⟨hm.1.symm, hm.2.symm⟩
      · rw [if_neg hcc] at hm
        exact absurd hm (applySwap_ne_false _ _ _ _ _)
  rw [if_neg hd] at hm
  by_cases hl : move = 'l'
  · rw [if_pos hl] at hm
    cases hc : checkInt (pos.x - 1) with
    | none => rw [hc] at hm; simp at hm
    | some n =>
      rw [hc] at hm
      simp only [] at hm
      by_cases hcc : n < 0
      · rw [if_pos hcc] at hm
        simp only [Option.some.injEq, Prod.mk.injEq, true_and] at hm
        exact ⟨hm.1.symm, hm.2.symm⟩
      · rw [if_neg hcc] at hm
        exact absurd hm (applySwap_ne_false _ _ _ _ _)
  rw [if_neg hl] at hm
  by_cases hr : move = 'r'
  · rw [if_pos hr] at hm
    cases hc : checkInt (pos.x + 1) with
    | none => rw [hc] at hm; simp at hm
    | some n =>
      rw [hc] at hm
      simp only [] at hm
      by_cases hcc : n ≥ SIZE
      · rw [if_pos hcc] at hm
        simp only [Option.some.injEq, Prod.mk.injEq, true_and] at hm
        exact ⟨hm.1.symm, hm.2.symm⟩
      · rw [if_neg hcc] at hm
        exact absurd hm (applySwap_ne_false _ _ _ _ _)
  rw [if_neg hr] at hm
  simp only [Option.some.injEq, Prod.mk.injEq, true_and] at hm
  exact ⟨hm.1.symm, hm.2.symm⟩

theorem toNat_eq_iff_of_digit (c : Char) (n : Nat) (hn : n < 128) :
    c.toNat = n ↔ c = Char.ofNat n := by
  constructor
  · intro h
    rw [← h, Char.ofNat_toNat]
  · intro h
    subst h
    interval_cases n <;> rfl

theorem mem_idx3 (i : Fin 3) : i ∈ idx3 := by
  unfold idx3
  fin_cases i <;> simp

/-- What the loop body of `TestSolution` tests at one cell. -/
theorem TestSolution_cells (game : Board) :
    TestSolution game = true ↔
      ∀ row col : Fin 3,
        (game col row).toNat = '1'.toNat + (col.val + 3 * row.val) ∨ game col row = 'x' := by
  unfold TestSolution
  rw [List.all_eq_true]
  constructor
  · intro h row col
    have h1 := h row (mem_idx3 row)
    rw [List.all_eq_true] at h1
    have h2 := h1 col (mem_idx3 col)
    simp only [SIZE, Int.toNat_ofNat, ne_eq, Bool.not_eq_true', Bool.and_eq_false_imp,
      decide_eq_true_eq, decide_eq_false_iff_not, not_not] at h2
    by_cases hc : (game col row).toNat = '1'.toNat + (col.val + 3 * row.val)
    · exact Or.inl hc
    · exact Or.inr (h2 hc)
  · intro h row _
    rw [List.all_eq_true]
    intro col _
    simp only [SIZE, Int.toNat_ofNat, ne_eq, Bool.not_eq_true', Bool.and_eq_false_imp,
      decide_eq_true_eq, decide_eq_false_iff_not, not_not]
    intro hc
    rcases h row col with h1 | h1
    · exact absurd h1 hc
    · exact h1

theorem count_cells (game : Board) (s : Char) :
    (cells game).count s =
      (if game 0 0 = s then 1 else 0) + (if game 1 0 = s then 1 else 0)
      + (if game 2 0 = s then 1 else 0) + (if game 0 1 = s then 1 else 0)
      + (if game 1 1 = s then 1 else 0) + (if game 2 1 = s then 1 else 0)
      + (if game 0 2 = s then 1 else 0) + (if game 1 2 = s then 1 else 0)
      + (if game 2 2 = s then 1 else 0) := by
  simp only [cells, List.count_cons, List.count_nil, beq_iff_eq]
  omega

/-- Swapping two cells changes no symbol count. -/
theorem count_swapCells (game : Board) (nx ny px py : Fin 3) (s : Char) :
    (cells (swapCells game nx ny px py)).count s = (cells game).count s := by
  rw [count_cells, count_cells]
  fin_cases nx <;> fin_cases ny <;> fin_cases px <;> fin_cases py <;>
    simp [swapCells, setCell] <;> omega

/-- On the grid `MakeMove` always returns. -/
theorem MakeMove_defined (game : Board) (move : Char) (pos : Position) (h : inGrid pos) :
    ∃ (b : Bool) (game1 : Board) (pos1 : Position),
      MakeMove game move pos = some (b, game1, pos1) := by
  rw [MakeMove_inGrid game move pos h]
  cases moveTarget move pos with
  | none => exact ⟨false, game, pos, rfl⟩
  | some q =>
    simp only []
    by_cases hq : inGrid q
    · rw [if_pos hq]
      obtain ⟨nx, ny, px, py, _, _, _, _, hsw⟩ := applySwap_inGrid game q pos hq h
      exact ⟨true, _, q, hsw⟩
    · rw [if_neg hq]
      exact ⟨false, game, pos, rfl⟩

/-- The character `TestSolution` expects at `(col, row)`. -/
theorem expected_cell (game : Board) (h : TestSolution game = true) (col row : Fin 3) :
    game col row = Char.ofNat (49 + col.val + 3 * row.val) ∨ game col row = 'x' := by
  rcases (TestSolution_cells game).mp h row col with hc | hc
  · left
    rw [← Nat.add_assoc] at hc
    exact (toNat_eq_iff_of_digit _ _ (by have := col.isLt; have := row.isLt; simp; omega)).mp hc
  · exact Or.inr hc

/-- A symbol that only one cell may hold, and that occurs once, is in that cell. -/
theorem forced_cell (game : Board) (t : Fin 3 → Fin 3 → Char)
    (hcell : ∀ i j, game i j = t i j ∨ game i j = 'x') (a b : Fin 3)
    (hinj : ∀ i j, ¬ (i = a ∧ j = b) → t i j ≠ t a b) (hx : 'x' ≠ t a b)
    (hcount : (cells game).count (t a b) = 1) : game a b = t a b := by
  by_contra hne
  have hall : ∀ i j, game i j ≠ t a b := by
    intro i j
    by_cases hij : i = a ∧ j = b
    · obtain ⟨rfl, rfl⟩ := hij
      exact hne
    · rcases hcell i j with e | e
      · rw [e]; exact hinj i j hij
      · rw [e]; exact hx
  rw [count_cells] at hcount
  simp [hall] at hcount

/-! ## The replay loop -/

theorem replay_inGrid (moves : List Char) :
    ∀ (game : Board) (pos : Position), inGrid pos →
      ∃ (valid : Bool) (game1 : Board) (pos1 : Position),
        replay game pos moves = some (valid, game1, pos1) ∧ inGrid pos1 := by
  induction moves with
  | nil => intro game pos h; exact ⟨true, game, pos, rfl, h⟩
  | cons move rest ih =>
    intro game pos h
    obtain ⟨b, game1, pos1, hm⟩ := MakeMove_defined game move pos h
    cases b with
    | false =>
      obtain ⟨rfl, rfl⟩ := MakeMove_false_same game move pos game1 pos1 hm
      refine ⟨false, game1, pos1, ?_, h⟩
      simp only [replay, hm]
    | true =>
      obtain ⟨_, hq, _⟩ := MakeMove_true_inGrid game move pos h game1 pos1 hm
      obtain ⟨v, game2, pos2, hr, hin⟩ := ih game1 pos1 hq
      refine ⟨v, game2, pos2, ?_, hin⟩
      simp only [replay, hm, hr]

theorem replay_of_accepted (game : Board) (pos : Position) (moves : List Char)
    (game1 : Board) (pos1 : Position) (h : AllAccepted game pos moves game1 pos1) :
    replay game pos moves = some (true, game1, pos1) := by
  induction h with
  | nil game pos => rfl
  | cons game pos move game1 pos1 rest game2 pos2 hm _ ih =>
    simp only [replay, hm, ih]

theorem accepted_of_replay (moves : List Char) :
    ∀ (game : Board) (pos : Position) (game1 : Board) (pos1 : Position),
      replay game pos moves = some (true, game1, pos1) →
      AllAccepted game pos moves game1 pos1 := by
  induction moves with
  | nil =>
    intro game pos game1 pos1 h
    simp only [replay, Option.some.injEq, Prod.mk.injEq, true_and] at h
    obtain ⟨rfl, rfl⟩ := h
    exact AllAccepted.nil game pos
  | cons move rest ih =>
    intro game pos game1 pos1 h
    cases hm : MakeMove game move pos with
    | none => simp [replay, hm] at h
    | some r =>
      obtain ⟨b, g, q⟩ := r
      cases b with
      | false => simp [replay, hm] at h
      | true =>
        simp only [replay, hm] at h
        exact AllAccepted.cons game pos move g q rest game1 pos1 hm (ih g q game1 pos1 h)

/-- The replay loop breaks at the first rejected character. -/
theorem replay_rejected (game : Board) (pos : Position) (pre : List Char)
    (game1 : Board) (pos1 : Position) (h : AllAccepted game pos pre game1 pos1)
    (c : Char) (post : List Char) (game2 : Board) (pos2 : Position)
    (hm : MakeMove game1 c pos1 = some (false, game2, pos2)) :
    replay game pos (pre ++ c :: post) = some (false, game1, pos1) := by
  induction h with
  | nil game pos =>
    obtain ⟨rfl, rfl⟩ := MakeMove_false_same game c pos game2 pos2 hm
    simp only [List.nil_append, replay, hm]
  | cons game pos move game1 pos1 rest game3 pos3 hmv _ ih =>
    simp only [List.cons_append, replay, hmv]
    exact ih hm

/-! ## Reading a board -/

theorem readCell_cons (game : Board) (pos : Position) (c : Char) (input : List Char)
    (k j : Fin 3) :
    readCell (game, pos, c :: input) k j =
      (setCell game k j c,
        if c = 'x' then { x := (k.val : Int), y := (j.val : Int) } else pos, input) := by
  unfold readCell
  simp only [List.tail_cons, setCell, and_self, if_true]
  by_cases hc : c = 'x'
  · rw [if_pos hc, if_pos hc]
  · rw [if_neg hc, if_neg hc]

theorem length_nine (toks : List Char) (h : toks.length = 9) :
    ∃ t0 t1 t2 t3 t4 t5 t6 t7 t8, toks = [t0, t1, t2, t3, t4, t5, t6, t7, t8] := by
  match toks, h with
  | [t0, t1, t2, t3, t4, t5, t6, t7, t8], _ => exact ⟨t0, t1, t2, t3, t4, t5, t6, t7, t8, rfl⟩

/-- The board stored from nine tokens: the `t`-th token is at
`game[t mod 3][t div 3]`, whatever the board held before. -/
theorem readBoard_nine (game : Board) (pos : Position) (t0 t1 t2 t3 t4 t5 t6 t7 t8 : Char)
    (rest : List Char) :
    readBoard game pos ([t0, t1, t2, t3, t4, t5, t6, t7, t8] ++ rest) =
      (![![t0, t3, t6], ![t1, t4, t7], ![t2, t5, t8]],
       (if t8 = 'x' then { x := 2, y := 2 }
        else if t7 = 'x' then { x := 1, y := 2 }
        else if t6 = 'x' then { x := 0, y := 2 }
        else if t5 = 'x' then { x := 2, y := 1 }
        else if t4 = 'x' then { x := 1, y := 1 }
        else if t3 = 'x' then { x := 0, y := 1 }
        else if t2 = 'x' then { x := 2, y := 0 }
        else if t1 = 'x' then { x := 1, y := 0 }
        else if t0 = 'x' then { x := 0, y := 0 }
        else pos),
       rest) := by
  simp only [readBoard, idx3, List.foldl, List.cons_append, List.nil_append, readCell_cons]
  refine Prod.ext ?_ (Prod.ext ?_ rfl)
  · funext i j
    fin_cases i <;> fin_cases j <;> simp [setCell]
  · simp

/-- When one of the nine tokens is `x`, the blank coordinate derived by the
read loop is on the grid. -/
theorem readBoard_blank_inGrid (game : Board) (pos : Position) (toks rest : List Char)
    (hlen : toks.length = 9) (hx : 'x' ∈ toks) :
    inGrid (readBoard game pos (toks ++ rest)).2.1 := by
  obtain ⟨t0, t1, t2, t3, t4, t5, t6, t7, t8, rfl⟩ := length_nine toks hlen
  rw [readBoard_nine]
  simp only [List.mem_cons, List.mem_singleton, List.not_mem_nil, or_false] at hx
  simp only []
  split_ifs with h8 h7 h6 h5 h4 h3 h2 h1 h0
  any_goals decide
  exfalso
  rcases hx with e | e | e | e | e | e | e | e | e
  · exact h0 e.symm
  · exact h1 e.symm
  · exact h2 e.symm
  · exact h3 e.symm
  · exact h4 e.symm
  · exact h5 e.symm
  · exact h6 e.symm
  · exact h7 e.symm
  · exact h8 e.symm

/-- From a blank coordinate on the grid the runner reaches a verdict. -/
theorem runSolution_defined (game : Board) (pos : Position) (solution : String)
    (h : inGrid pos) :
    ∃ (counted : Bool) (game1 : Board) (pos1 : Position),
      runSolution game pos solution = some (counted, game1, pos1) := by
  unfold runSolution
  by_cases hu : solution = "unsolvable"
  · rw [if_pos hu]
    exact ⟨true, game, pos, rfl⟩
  · rw [if_neg hu]
    obtain ⟨valid, game1, pos1, hr, _⟩ := replay_inGrid solution.data game pos h
    rw [hr]
    simp only []
    cases valid
    · exact ⟨false, game1, pos1, rfl⟩
    · cases ht : TestSolution game1
      · exact ⟨false, game1, pos1, by simp⟩
      · exact ⟨true, game1, pos1, by simp⟩

/-! ## The claims -/

/-- C1: for every board, every blank coordinate on the grid and every
character, `MakeMove` returns, and it returns `true` exactly when the character
is one of `u`, `d`, `l`, `r` and the coordinate it aims at (`u`: `(x, y-1)`,
`d`: `(x, y+1)`, `l`: `(x-1, y)`, `r`: `(x+1, y)`) is on the grid; any other
character and any move off the grid is rejected. -/
theorem MakeMove_accepts_iff (game : Board) (move : Char) (pos : Position) (h : inGrid pos) :
    ∃ r, MakeMove game move pos = some r ∧
      (r.1 = true ↔
        (move = 'u' ∨ move = 'd' ∨ move = 'l' ∨ move = 'r') ∧
        ∃ q, moveTarget move pos = some q ∧ inGrid q) := by
  rw [MakeMove_inGrid game move pos h]
  cases hmt : moveTarget move pos with
  | none =>
    refine ⟨(false, game, pos), rfl, ?_⟩
    simp
  | some q =>
    simp only []
    by_cases hq : inGrid q
    · rw [if_pos hq]
      obtain ⟨nx, ny, px, py, _, _, _, _, hsw⟩ := applySwap_inGrid game q pos hq h
      refine ⟨_, hsw, ?_⟩
      simp only [true_iff]
      exact ⟨moveTarget_direction move pos q hmt, q, rfl, hq⟩
    · rw [if_neg hq]
      refine ⟨(false, game, pos), rfl, ?_⟩
      simp only [Bool.false_eq_true, false_iff, not_and]
      rintro _ ⟨q1, hq1, hin⟩
      simp only [Option.some.injEq] at hq1
      subst hq1
      exact hq hin

theorem MakeMove_accepts_iff_witness :
    inGrid { x := 1, y := 0 } ∧
    ∃ r, MakeMove goal 'u' { x := 1, y := 0 } = some r ∧
      (r.1 = true ↔
        (('u' : Char) = 'u' ∨ ('u' : Char) = 'd' ∨ ('u' : Char) = 'l' ∨ ('u' : Char) = 'r') ∧
        ∃ q, moveTarget 'u' { x := 1, y := 0 } = some q ∧ inGrid q) :=
  ⟨by decide, MakeMove_accepts_iff goal 'u' { x := 1, y := 0 } (by decide)⟩

/-- C2: when `MakeMove` returns `true` from a blank coordinate `pos` on the
grid, the blank coordinate afterwards is the target `pos1` of the direction,
the new board holds at `pos1` what the old board held at `pos`, holds at `pos`
what the old board held at `pos1`, and equals the old board at every other cell. -/
theorem MakeMove_swaps (game : Board) (move : Char) (pos : Position) (h : inGrid pos)
    (game1 : Board) (pos1 : Position) (hm : MakeMove game move pos = some (true, game1, pos1)) :
    moveTarget move pos = some pos1 ∧ inGrid pos1 ∧
    (∃ a b : Char, cellAt game pos = some a ∧ cellAt game pos1 = some b ∧
      cellAt game1 pos1 = some a ∧ cellAt game1 pos = some b) ∧
    ∀ i j : Fin 3, ({ x := (i.val : Int), y := (j.val : Int) } : Position) ≠ pos →
      ({ x := (i.val : Int), y := (j.val : Int) } : Position) ≠ pos1 → game1 i j = game i j := by
  obtain ⟨ht, hq, nx, ny, px, py, h1, h2, h3, h4, hg⟩ :=
    MakeMove_true_inGrid game move pos h game1 pos1 hm
  refine ⟨ht, hq, ⟨game px py, game nx ny, ?_, ?_, ?_, ?_⟩, ?_⟩
  · exact cellAt_of_val game pos px py h3 h4
  · exact cellAt_of_val game pos1 nx ny h1 h2
  · rw [cellAt_of_val game1 pos1 nx ny h1 h2, hg, swapCells_new]
  · rw [cellAt_of_val game1 pos px py h3 h4, hg, swapCells_old]
  · intro i j hp hn
    rw [hg]
    apply swapCells_other
    · rintro ⟨rfl, rfl⟩
      apply hn
      cases pos1
      simp_all
    · rintro ⟨rfl, rfl⟩
      apply hp
      cases pos
      simp_all

theorem MakeMove_swaps_witness :
    inGrid { x := 1, y := 2 } ∧
    MakeMove scenarioBoard 'r' { x := 1, y := 2 }
      = some (true, swapCells scenarioBoard 2 2 1 2, { x := 2, y := 2 }) ∧
    (moveTarget 'r' { x := 1, y := 2 } = some { x := 2, y := 2 } ∧
      inGrid { x := 2, y := 2 } ∧
      (∃ a b : Char, cellAt scenarioBoard { x := 1, y := 2 } = some a ∧
        cellAt scenarioBoard { x := 2, y := 2 } = some b ∧
        cellAt (swapCells scenarioBoard 2 2 1 2) { x := 2, y := 2 } = some a ∧
        cellAt (swapCells scenarioBoard 2 2 1 2) { x := 1, y := 2 } = some b) ∧
      ∀ i j : Fin 3,
        ({ x := (i.val : Int), y := (j.val : Int) } : Position) ≠ { x := 1, y := 2 } →
        ({ x := (i.val : Int), y := (j.val : Int) } : Position) ≠ { x := 2, y := 2 } →
        swapCells scenarioBoard 2 2 1 2 i j = scenarioBoard i j) :=
  ⟨by decide, by rfl,
    MakeMove_swaps scenarioBoard 'r' { x := 1, y := 2 } (by decide)
      (swapCells scenarioBoard 2 2 1 2) { x := 2, y := 2 } (by rfl)⟩

/-- C3: for every board, every blank coordinate (on the grid or not) and every
character, when `MakeMove` returns `false` the board and the blank coordinate
after the call are those before the call. -/
theorem MakeMove_false_unchanged (game : Board) (move : Char) (pos : Position)
    (game1 : Board) (pos1 : Position)
    (hm : MakeMove game move pos = some (false, game1, pos1)) :
    game1 = game ∧ pos1 = pos :=
  MakeMove_false_same game move pos game1 pos1 hm

theorem MakeMove_false_unchanged_witness :
    MakeMove goal 'u' { x := 1, y := 0 } = some (false, goal, { x := 1, y := 0 }) ∧
    (goal = goal ∧ ({ x := 1, y := 0 } : Position) = { x := 1, y := 0 }) :=
  ⟨by rfl, MakeMove_false_unchanged goal 'u' { x := 1, y := 0 } goal { x := 1, y := 0 } (by rfl)⟩

/-- C6: after a successful `MakeMove` from a blank coordinate on the grid,
`MakeMove` with the inverse direction (`u` for `d`, `d` for `u`, `l` for `r`,
`r` for `l`) succeeds too and gives back the original board and the original
blank coordinate. -/
theorem MakeMove_inverse (game : Board) (move : Char) (pos : Position) (h : inGrid pos)
    (game1 : Board) (pos1 : Position) (hm : MakeMove game move pos = some (true, game1, pos1)) :
    (move = 'u' ∨ move = 'd' ∨ move = 'l' ∨ move = 'r') ∧
    MakeMove game1 (inverseMove move) pos1 = some (true, game, pos) := by
  obtain ⟨ht, hq, nx, ny, px, py, h1, h2, h3, h4, hg⟩ :=
    MakeMove_true_inGrid game move pos h game1 pos1 hm
  have hdir := moveTarget_direction move pos pos1 ht
  refine ⟨hdir, ?_⟩
  have hback : moveTarget (inverseMove move) pos1 = some pos := by
    cases pos with
    | mk x y =>
      rcases hdir with rfl | rfl | rfl | rfl <;>
        · simp only [moveTarget, Char.reduceEq, if_true, if_false, Option.some.injEq] at ht
          subst ht
          simp [moveTarget, inverseMove]
  rw [MakeMove_inGrid game1 (inverseMove move) pos1 hq, hback]
  simp only []
  rw [if_pos h]
  obtain ⟨a, b, c, d, k1, k2, k3, k4, hsw⟩ := applySwap_inGrid game1 pos pos1 h hq
  have e1 : a = px := by apply Fin.ext; omega
  have e2 : b = py := by apply Fin.ext; omega
  have e3 : c = nx := by apply Fin.ext; omega
  have e4 : d = ny := by apply Fin.ext; omega
  subst e1 e2 e3 e4
  rw [hsw, hg, swapCells_swapCells]

theorem MakeMove_inverse_witness :
    inGrid { x := 1, y := 2 } ∧
    MakeMove scenarioBoard 'r' { x := 1, y := 2 }
      = some (true, swapCells scenarioBoard 2 2 1 2, { x := 2, y := 2 }) ∧
    ((('r' : Char) = 'u' ∨ ('r' : Char) = 'd' ∨ ('r' : Char) = 'l' ∨ ('r' : Char) = 'r') ∧
      MakeMove (swapCells scenarioBoard 2 2 1 2) (inverseMove 'r') { x := 2, y := 2 }
        = some (true, scenarioBoard, { x := 1, y := 2 })) :=
  ⟨by decide, by rfl,
    MakeMove_inverse scenarioBoard 'r' { x := 1, y := 2 } (by decide)
      (swapCells scenarioBoard 2 2 1 2) { x := 2, y := 2 } (by rfl)⟩

/-- C4: `TestSolution` returns `true` exactly when every cell at `(col, row)`
whose symbol is not `x` holds the character `'1' + col + 3*row`; a cell holding
`x` is accepted at any coordinate. -/
theorem TestSolution_iff (game : Board) :
    TestSolution game = true ↔
      ∀ col row : Fin 3, game col row ≠ 'x' →
        game col row = Char.ofNat ('1'.toNat + col.val + 3 * row.val) := by
  rw [TestSolution_cells]
  constructor
  · intro h col row hx
    have hc := h row col
    rcases hc with hc | hc
    · rw [← Nat.add_assoc] at hc
      exact (toNat_eq_iff_of_digit _ _ (by have := col.isLt; have := row.isLt; simp; omega)).mp hc
    · exact absurd hc hx
  · intro h row col
    by_cases hx : game col row = 'x'
    · exact Or.inr hx
    · left
      rw [← Nat.add_assoc]
      exact (toNat_eq_iff_of_digit _ _ (by have := col.isLt; have := row.isLt; simp; omega)).mpr
        (h col row hx)

/-- C7: `MakeMove` preserves well-formedness, whatever character is passed and
whatever it returns: from a state whose board has exactly one `x` and the eight
distinct digits `1` to `8` in the other cells, and whose cached blank
coordinate is on the grid at the cell holding `x`, the call returns and the
state after it is again of that kind. -/
theorem MakeMove_preserves_WellFormed (game : Board) (move : Char) (pos : Position)
    (h : WellFormed game pos) :
    ∃ (b : Bool) (game1 : Board) (pos1 : Position),
      MakeMove game move pos = some (b, game1, pos1) ∧ WellFormed game1 pos1 := by
  obtain ⟨hv, hin, hx⟩ := h
  obtain ⟨b, game1, pos1, hm⟩ := MakeMove_defined game move pos hin
  refine ⟨b, game1, pos1, hm, ?_⟩
  cases b with
  | false =>
    obtain ⟨rfl, rfl⟩ := MakeMove_false_same game move pos game1 pos1 hm
    exact ⟨hv, hin, hx⟩
  | true =>
    obtain ⟨_, hq, nx, ny, px, py, h1, h2, h3, h4, hg⟩ :=
      MakeMove_true_inGrid game move pos hin game1 pos1 hm
    subst hg
    refine ⟨⟨?_, ?_⟩, hq, ?_⟩
    · rw [count_swapCells]; exact hv.1
    · intro d hd
      rw [count_swapCells]; exact hv.2 d hd
    · rw [cellAt_of_val _ pos1 nx ny h1 h2, swapCells_new]
      rw [cellAt_of_val game pos px py h3 h4] at hx
      exact hx

theorem MakeMove_preserves_WellFormed_witness :
    WellFormed goal { x := 2, y := 2 } ∧
    ∃ (b : Bool) (game1 : Board) (pos1 : Position),
      MakeMove goal 'l' { x := 2, y := 2 } = some (b, game1, pos1) ∧ WellFormed game1 pos1 :=
  ⟨by decide, MakeMove_preserves_WellFormed goal 'l' { x := 2, y := 2 } (by decide)⟩

/-- C8: among the boards with exactly one `x` and the eight distinct digits `1`
to `8` in the other cells, `TestSolution` returns `true` exactly on the classic
target (columns `{1,4,7}`, `{2,5,8}`, `{3,6,x}`, blank at column 2, row 2), and
it does return `true` on that target. -/
theorem TestSolution_iff_goal (game : Board) (h : ValidBoard game) :
    (TestSolution game = true ↔ game = goal) ∧ TestSolution goal = true := by
  refine ⟨⟨?_, ?_⟩, by decide⟩
  · intro ht
    have hcell := expected_cell game ht
    obtain ⟨hx, hd⟩ := h
    have e00 : game 0 0 = '1' :=
      forced_cell game _ hcell 0 0 (by decide) (by decide) (hd '1' (by decide))
    have e10 : game 1 0 = '2' :=
      forced_cell game _ hcell 1 0 (by decide) (by decide) (hd '2' (by decide))
    have e20 : game 2 0 = '3' :=
      forced_cell game _ hcell 2 0 (by decide) (by decide) (hd '3' (by decide))
    have e01 : game 0 1 = '4' :=
      forced_cell game _ hcell 0 1 (by decide) (by decide) (hd '4' (by decide))
    have e11 : game 1 1 = '5' :=
      forced_cell game _ hcell 1 1 (by decide) (by decide) (hd '5' (by decide))
    have e21 : game 2 1 = '6' :=
      forced_cell game _ hcell 2 1 (by decide) (by decide) (hd '6' (by decide))
    have e02 : game 0 2 = '7' :=
      forced_cell game _ hcell 0 2 (by decide) (by decide) (hd '7' (by decide))
    have e12 : game 1 2 = '8' :=
      forced_cell game _ hcell 1 2 (by decide) (by decide) (hd '8' (by decide))
    have e22 : game 2 2 = 'x' := by
      rw [count_cells, e00, e10, e20, e01, e11, e21, e02, e12] at hx
      by_contra hne
      simp [hne] at hx
    funext i j
    fin_cases i <;> fin_cases j <;> simp [goal] <;> assumption
  · intro hg
    subst hg
    decide

theorem TestSolution_iff_goal_witness :
    ValidBoard goal ∧ ((TestSolution goal = true ↔ goal = goal) ∧ TestSolution goal = true) :=
  ⟨by decide, TestSolution_iff_goal goal (by decide)⟩

/-- C5: from a blank coordinate on the grid the runner reaches a verdict, and it
counts the test case exactly when the move string is the literal `unsolvable`
or every character of the string is accepted by `MakeMove` in order and
`TestSolution` is `true` on the board reached.  With `unsolvable` no move is
applied.  Otherwise, when some character is rejected after a prefix of accepted
ones, the board and blank coordinate stay those at the rejected character (no
later character is applied) and the test case is not counted. -/
theorem runSolution_counts (game : Board) (pos : Position) (solution : String)
    (h : inGrid pos) :
    ∃ (counted : Bool) (game1 : Board) (pos1 : Position),
      runSolution game pos solution = some (counted, game1, pos1) ∧
      (counted = true ↔
        (solution = "unsolvable" ∨
          ∃ g p, AllAccepted game pos solution.data g p ∧ TestSolution g = true)) ∧
      (solution = "unsolvable" → game1 = game ∧ pos1 = pos) ∧
      (solution ≠ "unsolvable" →
        ∀ (pre : List Char) (c : Char) (post : List Char) (g : Board) (p : Position)
          (g2 : Board) (p2 : Position),
          solution.data = pre ++ c :: post → AllAccepted game pos pre g p →
          MakeMove g c p = some (false, g2, p2) →
          counted = false ∧ game1 = g ∧ pos1 = p) := by
  by_cases hu : solution = "unsolvable"
  · refine ⟨true, game, pos, ?_, ?_, ?_, ?_⟩
    · unfold runSolution
      rw [if_pos hu]
    · simp [hu]
    · intro _; exact ⟨rfl, rfl⟩
    · intro hne; exact absurd hu hne
  · obtain ⟨valid, game1, pos1, hr, _⟩ := replay_inGrid solution.data game pos h
    have hrun : runSolution game pos solution =
        some (valid && TestSolution game1, game1, pos1) := by
      unfold runSolution
      rw [if_neg hu, hr]
      simp only []
      cases valid
      · rfl
      · cases ht : TestSolution game1 <;> simp
    refine ⟨valid && TestSolution game1, game1, pos1, hrun, ?_, ?_, ?_⟩
    · constructor
      · intro hc
        rw [Bool.and_eq_true] at hc
        obtain ⟨hv, ht⟩ := hc
        subst hv
        exact Or.inr ⟨game1, pos1, accepted_of_replay _ _ _ _ _ hr, ht⟩
      · rintro (hs | ⟨g, p, hacc, ht⟩)
        · exact absurd hs hu
        · have hr2 := replay_of_accepted _ _ _ _ _ hacc
          rw [hr] at hr2
          simp only [Option.some.injEq, Prod.mk.injEq] at hr2
          obtain ⟨rfl, rfl, rfl⟩ := hr2
          simp [ht]
    · intro hs; exact absurd hs hu
    · intro _ pre c post g p g2 p2 hdata hacc hm
      have hr2 := replay_rejected game pos pre g p hacc c post g2 p2 hm
      rw [← hdata, hr] at hr2
      simp only [Option.some.injEq, Prod.mk.injEq] at hr2
      obtain ⟨rfl, rfl, rfl⟩ := hr2
      exact ⟨rfl, rfl, rfl⟩

theorem runSolution_counts_witness :
    inGrid { x := 1, y := 2 } ∧
    ∃ (counted : Bool) (game1 : Board) (pos1 : Position),
      runSolution scenarioBoard { x := 1, y := 2 } "ru" = some (counted, game1, pos1) ∧
      (counted = true ↔
        ("ru" = "unsolvable" ∨
          ∃ g p, AllAccepted scenarioBoard { x := 1, y := 2 } "ru".data g p ∧
            TestSolution g = true)) ∧
      ("ru" = "unsolvable" → game1 = scenarioBoard ∧ pos1 = { x := 1, y := 2 }) ∧
      ("ru" ≠ "unsolvable" →
        ∀ (pre : List Char) (c : Char) (post : List Char) (g : Board) (p : Position)
          (g2 : Board) (p2 : Position),
          "ru".data = pre ++ c :: post → AllAccepted scenarioBoard { x := 1, y := 2 } pre g p →
          MakeMove g c p = some (false, g2, p2) →
          counted = false ∧ game1 = g ∧ pos1 = p) :=
  ⟨by decide, runSolution_counts scenarioBoard { x := 1, y := 2 } "ru" (by decide)⟩

/-- C9: scenario 1.  Reading the nine tokens `1 2 3 4 5 6 7 x 8` stores the
`t`-th token at `game[t mod 3][t div 3]` and derives the blank coordinate
column 1, row 2, whatever the two variables held before; `MakeMove` accepts the
single move `r`; the board it leaves satisfies `TestSolution`; and the run of
one test with the solution `r` ends with the tally 1 out of 1. -/
theorem scenario_one (game : Board) (pos : Position) :
    readBoard game pos scenarioTokens = (scenarioBoard, { x := 1, y := 2 }, []) ∧
    (∀ t : Fin 9,
      scenarioBoard ⟨t.val % 3, Nat.mod_lt _ (by decide)⟩ ⟨t.val / 3, by omega⟩
        = scenarioTokens.getD t.val 'x') ∧
    MakeMove scenarioBoard 'r' { x := 1, y := 2 } = some (true, goal, { x := 2, y := 2 }) ∧
    TestSolution goal = true ∧
    mainTally 1 game pos scenarioTokens ["r"] = some (1, 1) := by
  have hread : readBoard game pos scenarioTokens = (scenarioBoard, { x := 1, y := 2 }, []) := by
    have := readBoard_nine game pos '1' '2' '3' '4' '5' '6' '7' 'x' '8' []
    simp only [List.append_nil] at this
    unfold scenarioTokens
    rw [this]
    refine Prod.ext ?_ (Prod.ext ?_ rfl)
    · rfl
    · simp
  have hswap : swapCells scenarioBoard 2 2 1 2 = goal := by
    funext i j
    fin_cases i <;> fin_cases j <;> rfl
  have hmove : MakeMove scenarioBoard 'r' { x := 1, y := 2 }
      = some (true, goal, { x := 2, y := 2 }) := by
    rw [← hswap]
    rfl
  have hrun : runSolution scenarioBoard { x := 1, y := 2 } "r"
      = some (true, goal, { x := 2, y := 2 }) := by
    unfold runSolution
    rw [if_neg (by decide)]
    have hdata : "r".data = ['r'] := rfl
    rw [hdata]
    simp only [replay, hmove]
    rfl
  refine ⟨hread, by decide, hmove, by decide, ?_⟩
  simp only [mainTally, Int.toNat_one, runTests, testCase, hread, readWord, hrun]
  rfl

/-- C10, as the code has it: the blank coordinate is taken over from the
preceding test when none of the nine symbols is `x`.  With the symbols
`1 2 3 4 5 6 7 8 9` and the solution `ud`, a run that enters the test with the
well-formed leftover state `(blankAt00, (0,0))` and a run that enters it with
`(blankAt01, (0,1))` start replay from different blank coordinates, and the
first does not count the test while the second does.  End to end: two inputs
of two tests that differ in the first board only, answered `unsolvable` and
`ud`, end with the tallies 1 out of 2 and 2 out of 2. -/
theorem leftover_blank_counterexample :
    noBlankTokens.length = 9 ∧
    WellFormed blankAt00 { x := 0, y := 0 } ∧ WellFormed blankAt01 { x := 0, y := 1 } ∧
    (readBoard blankAt00 { x := 0, y := 0 } noBlankTokens).2.1 = { x := 0, y := 0 } ∧
    (readBoard blankAt01 { x := 0, y := 1 } noBlankTokens).2.1 = { x := 0, y := 1 } ∧
    (testCase { game := blankAt00, pos := { x := 0, y := 0 }, input := noBlankTokens,
                output := ["ud"], correct := 0 }).map (fun st => st.correct) = some 0 ∧
    (testCase { game := blankAt01, pos := { x := 0, y := 1 }, input := noBlankTokens,
                output := ["ud"], correct := 0 }).map (fun st => st.correct) = some 1 ∧
    mainTally 2 goal { x := 0, y := 0 }
      (['x', '1', '2', '3', '4', '5', '6', '7', '8'] ++ noBlankTokens) ["unsolvable", "ud"]
      = some (1, 2) ∧
    mainTally 2 goal { x := 0, y := 0 }
      (['1', '2', '3', 'x', '4', '5', '6', '7', '8'] ++ noBlankTokens) ["unsolvable", "ud"]
      = some (2, 2) := by
  decide

/-- C10, amended: when at least one of the nine symbols read is `x`, the board,
the blank coordinate and the rest of the input after the read are determined
by the input alone and the blank coordinate is on the grid, so two runs that
differ only in the board and the blank coordinate left over from the preceding
test start the test from the same state, and both end the loop iteration, in
the same state with the same count. -/
theorem readBoard_fresh (toks rest : List Char) (hlen : toks.length = 9) (hx : 'x' ∈ toks)
    (g1 g2 : Board) (p1 p2 : Position) (out : List String) (c : Int) :
    readBoard g1 p1 (toks ++ rest) = readBoard g2 p2 (toks ++ rest) ∧
    inGrid (readBoard g1 p1 (toks ++ rest)).2.1 ∧
    ∃ st : Run,
      testCase { game := g1, pos := p1, input := toks ++ rest, output := out, correct := c }
        = some st ∧
      testCase { game := g2, pos := p2, input := toks ++ rest, output := out, correct := c }
        = some st := by
  have hread : readBoard g1 p1 (toks ++ rest) = readBoard g2 p2 (toks ++ rest) := by
    obtain ⟨t0, t1, t2, t3, t4, t5, t6, t7, t8, rfl⟩ := length_nine toks hlen
    rw [readBoard_nine, readBoard_nine]
    refine Prod.ext rfl (Prod.ext ?_ rfl)
    simp only [List.mem_cons, List.mem_singleton, List.not_mem_nil, or_false] at hx
    rcases hx with e | e | e | e | e | e | e | e | e <;> simp [← e]
  have hin := readBoard_blank_inGrid g1 p1 toks rest hlen hx
  refine ⟨hread, hin, ?_⟩
  obtain ⟨counted, game1, pos1, hrun⟩ :=
    runSolution_defined (readBoard g1 p1 (toks ++ rest)).1 (readBoard g1 p1 (toks ++ rest)).2.1
      (readWord out).1 hin
  refine ⟨{ game := game1, pos := pos1, input := (readBoard g1 p1 (toks ++ rest)).2.2,
            output := (readWord out).2, correct := if counted then c + 1 else c }, ?_, ?_⟩
  · simp only [testCase, hrun]
  · simp only [testCase, ← hread, hrun]

theorem readBoard_fresh_witness :
    scenarioTokens.length = 9 ∧ 'x' ∈ scenarioTokens ∧
    (readBoard blankAt00 { x := 0, y := 0 } (scenarioTokens ++ [])
      = readBoard blankAt01 { x := 0, y := 1 } (scenarioTokens ++ []) ∧
    inGrid (readBoard blankAt00 { x := 0, y := 0 } (scenarioTokens ++ [])).2.1 ∧
    ∃ st : Run,
      testCase { game := blankAt00, pos := { x := 0, y := 0 }, input := scenarioTokens ++ [],
                 output := ["r"], correct := 0 } = some st ∧
      testCase { game := blankAt01, pos := { x := 0, y := 1 }, input := scenarioTokens ++ [],
                 output := ["r"], correct := 0 } = some st) :=
  ⟨by decide, by decide,
    readBoard_fresh scenarioTokens [] (by decide) (by decide) blankAt00 blankAt01
      { x := 0, y := 0 } { x := 0, y := 1 } ["r"] 0⟩

end Puzzle
